import Mathlib

/-
  Verification development for the ecsm repository (Entity Component System Manager).

  Shallow embedding of the storage core: the LinearPool slab allocator
  (src/include/linear-pool.hpp), the View staleness guard, the Ref shared-ownership
  wrapper, the per-entity sorted component directory (Entity in src/include/ecsm.hpp),
  and the Manager garbage/dispose coordinator (src/source/ecsm.cpp).

  The model reflects the debug configuration (NDEBUG undefined): the pool `version`
  counter and the View staleness check exist only in that configuration in the source.
  Machine integers (uint32_t handles/counters, uint64_t version) are modelled as Nat;
  no claim exercises wrap-around behaviour.
-/

deriving instance DecidableEq for Except

namespace Ecsm

/-
  `ID<T>` is a 32-bit slot index plus one, with 0 the null sentinel
  (src/include/linear-pool.hpp, struct ID). We model handles as plain Nat.
-/

/-- Embedding of `ecsm::LinearPool<T>` (src/include/linear-pool.hpp, class LinearPool).
`items` is the `T*` block (its length tracks `capacity`); `freeItems` is the
`std::stack` of reclaimed handles with the list head as the stack top; `garbageItems`
is the marked-but-not-disposed list; `version` is the debug `std::atomic_uint64_t`. -/
structure LinearPool (α : Type) where
  items : List α
  occupancy : Nat := 0
  capacity : Nat := 1
  freeItems : List Nat := []
  garbageItems : List Nat := []
  version : Nat := 0
deriving Repr, DecidableEq

/-- The `LinearPool()` constructor: `items = new T[1]`, all counters zero, capacity 1. -/
def LinearPool.fresh (defa : α) : LinearPool α := { items := [defa] }

/-- `LinearPool::create(args)` (linear-pool.hpp lines 579-620).
If the free stack is non-empty: pop the top handle, assign the new value into that
slot in place, return the handle (no growth, no version bump). Otherwise, double the
capacity when `occupancy == capacity` (moving the live prefix into a freshly
default-initialised block), place the new record at index `occupancy`, bump the debug
`version`, and return `occupancy + 1` as the 1-based handle. -/
def LinearPool.create (defa : α) (p : LinearPool α) (v : α) : Nat × LinearPool α :=
  match p.freeItems with
  | f :: rest =>
    (f, { p with items := p.items.set (f - 1) v, freeItems := rest })
  | [] =>
    let p1 :=
      if p.occupancy = p.capacity then
        { p with
          capacity := 2 * p.capacity,
          items := p.items.take p.occupancy
            ++ List.replicate (2 * p.capacity - p.occupancy) defa }
      else p
    (p.occupancy + 1,
     { p1 with
       items := p1.items.set p.occupancy v,
       occupancy := p.occupancy + 1,
       version := p.version + 1 })

/-- `LinearPool::destroy(instance)` (linear-pool.hpp lines 629-642), release path of the
state change: no-op on the null handle, otherwise bump the debug version and append the
handle to the garbage list. Debug assertions are modelled separately by `destroyD`. -/
def LinearPool.destroy (p : LinearPool α) (instance_ : Nat) : LinearPool α :=
  if instance_ = 0 then p
  else { p with version := p.version + 1, garbageItems := p.garbageItems ++ [instance_] }

/-- `LinearPool::destroy(instance)` with the debug (NDEBUG undefined) assertions made
explicit: `assert(*instance - 1 < occupancy)` and the garbage scan
`assert(item != instance)` commented "Second item destroy detected". -/
def LinearPool.destroyD (p : LinearPool α) (instance_ : Nat) :
    Except String (LinearPool α) :=
  if instance_ = 0 then .ok p
  else if ¬ instance_ - 1 < p.occupancy then
    .error "Assertion failed: *instance - 1 < occupancy"
  else if instance_ ∈ p.garbageItems then
    .error "Second item destroy detected."
  else
    .ok { p with version := p.version + 1, garbageItems := p.garbageItems ++ [instance_] }

/-- Embedding of `ecsm::View<T>` (linear-pool.hpp, struct View), debug configuration:
the accessor snapshots the slot contents together with the pool version captured at
issue time. -/
structure View (α : Type) where
  item : α
  version : Nat
deriving Repr, DecidableEq

/-- `LinearPool::get(instance)` (linear-pool.hpp lines 651-660): a View of slot
`*instance - 1` carrying the current pool version. -/
def LinearPool.get (defa : α) (p : LinearPool α) (instance_ : Nat) : View α :=
  { item := p.items.getD (instance_ - 1) defa, version := p.version }

/-- `View::operator->` / `operator*` in debug mode (linear-pool.hpp lines 145-196):
dereferencing fails with the staleness error when the captured version no longer
equals the pool's current version. -/
def View.deref (w : View α) (poolVersion : Nat) : Except String α :=
  if w.version ≠ poolVersion then
    .error "Item has been invalidated by the previous calls."
  else .ok w.item

/-- The `while (i < n)` loop of `LinearPool::dispose()` for a destructible item kind
(linear-pool.hpp lines 766-788). `d` is the item's own `destroy()` member; on success
the slot is reset to the default value, the handle pushed onto the free stack and the
garbage entry swap-removed with the last active entry; on failure the index advances.
The loop is driven by explicit fuel; each iteration strictly decreases `n - i`, so
fuel `= n` makes the exhaustion branch unreachable. -/
def disposeLoop (d : α → Bool) (defa : α) :
    Nat → Nat → Nat → List α → List Nat → List Nat → List α × List Nat × List Nat
  | 0, _, n, items, free, g => (items, free, g.take n)
  | fuel + 1, i, n, items, free, g =>
    if i < n then
      let item := g.getD i 0
      if d (items.getD (item - 1) defa) then
        disposeLoop d defa fuel i (n - 1) (items.set (item - 1) defa)
          (item :: free) (g.set i (g.getD (n - 1) 0))
      else
        disposeLoop d defa fuel (i + 1) n items free g
    else (items, free, g.take n)

/-- `LinearPool::dispose()` (linear-pool.hpp lines 758-802), DestroyItems = true
variant: run the garbage loop, then `garbageItems.resize(n)` keeps the still-pending
prefix. -/
def LinearPool.dispose (d : α → Bool) (defa : α) (p : LinearPool α) : LinearPool α :=
  let r := disposeLoop d defa p.garbageItems.length 0 p.garbageItems.length
    p.items p.freeItems p.garbageItems
  { p with items := r.1, freeItems := r.2.1, garbageItems := r.2.2 }

/-- `LinearPool::dispose()` DestroyItems = false variant (linear-pool.hpp lines
789-797): every garbage entry is unconditionally reset and pushed onto the free
stack, then the garbage list is cleared. -/
def LinearPool.disposeND (defa : α) (p : LinearPool α) : LinearPool α :=
  let r := p.garbageItems.foldl
    (fun (s : List α × List Nat) item => (s.1.set (item - 1) defa, item :: s.2))
    (p.items, p.freeItems)
  { p with items := r.1, freeItems := r.2, garbageItems := [] }

/- Concrete pool states for the end-to-end scenario of claim C1: a fresh pool of
capacity 1 (item type instantiated at Nat, `destroy()` of the item reporting
success), three creates, a destroy of handle 2, a dispose, and a reusing create. -/

def c1s0 : LinearPool Nat := LinearPool.fresh 0
def c1s1 : LinearPool Nat := (LinearPool.create 0 c1s0 5).2
def c1s2 : LinearPool Nat := (LinearPool.create 0 c1s1 6).2
def c1s3 : LinearPool Nat := (LinearPool.create 0 c1s2 7).2
def c1s4 : LinearPool Nat := LinearPool.destroy c1s3 2
def c1s5 : LinearPool Nat := LinearPool.dispose (fun _ => true) 0 c1s4
def c1s6 : Nat × LinearPool Nat := LinearPool.create 0 c1s5 9

/-- Reading back the slot just written: `(l.set i v).getD i d = v` within bounds. -/
theorem getD_set_self (l : List α) (i : Nat) (v d : α) (h : i < l.length) :
    (l.set i v).getD i d = v := by
  simp [List.getD, List.getElem?_set_eq_of_lt v h]

/-- C1 counterexample: starting from a fresh pool of capacity 1, three `create()`
calls leave the pool version at 3, not at 2 as the claim states: the source bumps
the version on every create that takes a fresh slot (linear-pool.hpp line 616), not
only on the two creates that grow the capacity. -/
theorem c1_scenario_counterexample :
    c1s3.version = 3 ∧ ¬ c1s3.version = c1s0.version + 2 := by decide

/-- C1 (amended): from a fresh pool of capacity 1, three `create()` calls make the
capacity 4 (growing 1 → 2 → 4) and the occupancy 3 and increment the pool version
exactly three times (once per create that takes a fresh slot, including the two that
grow capacity); destroying handle 2 increments the version again and leaves the
garbage list equal to [2]; `dispose()` pushes handle 2 onto the free stack and resets
the record to the default value; one more `create()` returns handle 2 again without
growing the capacity or bumping the version. -/
theorem c1_scenario_amended :
    c1s1.capacity = 1 ∧ c1s2.capacity = 2 ∧ c1s3.capacity = 4 ∧
    c1s3.occupancy = 3 ∧ c1s3.version = c1s0.version + 3 ∧
    c1s4.version = c1s3.version + 1 ∧ c1s4.garbageItems = [2] ∧
    c1s5.freeItems = [2] ∧ c1s5.items.getD 1 0 = 0 ∧ c1s5.garbageItems = [] ∧
    c1s6.1 = 2 ∧ c1s6.2.capacity = 4 ∧ c1s6.2.version = c1s5.version := by decide

/-- C5: whenever the free stack is non-empty, `create(args)` pops its top handle,
reinitialises that slot in place with the supplied value, and returns the popped
handle; the capacity, occupancy and version are untouched (no reallocation, no
version bump), and a following `get` on that handle reads the newly supplied data. -/
theorem c5_create_reuses_free_slot (α : Type) (defa : α) (p : LinearPool α) (v : α)
    (f : Nat) (rest : List Nat) (hfree : p.freeItems = f :: rest)
    (hb : f - 1 < p.items.length) :
    (LinearPool.create defa p v).1 = f ∧
    (LinearPool.create defa p v).2.capacity = p.capacity ∧
    (LinearPool.create defa p v).2.occupancy = p.occupancy ∧
    (LinearPool.create defa p v).2.version = p.version ∧
    (LinearPool.create defa p v).2.freeItems = rest ∧
    (LinearPool.create defa p v).2.items = p.items.set (f - 1) v ∧
    (LinearPool.get defa (LinearPool.create defa p v).2 f).item = v := by
  have hc : LinearPool.create defa p v =
      (f, { p with items := p.items.set (f - 1) v, freeItems := rest }) := by
    simp only [LinearPool.create, hfree]
  rw [hc]
  refine ⟨rfl, rfl, rfl, rfl, rfl, rfl, ?_⟩
  exact getD_set_self p.items (f - 1) v defa hb

/-- Concrete pool used to witness C5: two occupied slots, handle 2 on the free
stack. -/
def c5pool : LinearPool Nat :=
  { items := [10, 20], occupancy := 2, capacity := 2,
    freeItems := [2], garbageItems := [], version := 7 }

theorem c5_create_reuses_free_slot_witness :
    (LinearPool.create 0 c5pool 99).1 = 2 ∧
    (LinearPool.create 0 c5pool 99).2.version = 7 ∧
    (LinearPool.create 0 c5pool 99).2.capacity = 2 ∧
    (LinearPool.get 0 (LinearPool.create 0 c5pool 99).2 2).item = 99 := by
  have h := c5_create_reuses_free_slot Nat 0 c5pool 99 2 [] (by decide) (by decide)
  exact ⟨h.1, h.2.2.2.1, h.2.1, h.2.2.2.2.2.2⟩

/-- C6: the pool version strictly increases on every `create` that grows the block
(free stack empty and occupancy equal to capacity, so the block is reallocated at
double capacity) and on every `destroy` of a non-null handle; and a View whose
captured version no longer equals the pool's current version fails with the
staleness error on every dereference in the debug configuration. -/
theorem c6_version_monotone_and_stale_view (α : Type) (defa : α) (p : LinearPool α)
    (v : α) (h : Nat) (w : View α) (cur : Nat) :
    (p.freeItems = [] → p.occupancy = p.capacity →
      (LinearPool.create defa p v).2.version = p.version + 1 ∧
      (LinearPool.create defa p v).2.capacity = 2 * p.capacity) ∧
    (h ≠ 0 → (LinearPool.destroy p h).version = p.version + 1) ∧
    (w.version ≠ cur →
      w.deref cur = .error "Item has been invalidated by the previous calls.") := by
  refine ⟨fun hfree hful => ?_, fun h0 => ?_, fun hv => ?_⟩
  · simp only [LinearPool.create, hfree, if_pos hful]
    exact ⟨trivial, trivial⟩
  · simp only [LinearPool.destroy, if_neg h0]
  · simp only [View.deref, if_pos hv]

theorem c6_version_monotone_and_stale_view_witness :
    ((LinearPool.create 0 c1s1 6).2.version = c1s1.version + 1 ∧
     (LinearPool.create 0 c1s1 6).2.capacity = 2 * c1s1.capacity) ∧
    (LinearPool.destroy c1s1 1).version = c1s1.version + 1 ∧
    View.deref { item := (3 : Nat), version := 5 } 6 =
      .error "Item has been invalidated by the previous calls." := by
  have h := c6_version_monotone_and_stale_view Nat 0 c1s1 6 1
    { item := (3 : Nat), version := 5 } 6
  exact ⟨h.1 (by decide) (by decide), h.2.1 (by decide), h.2.2 (by decide)⟩

/-- C10: in the debug configuration, `destroy` on a non-null, in-bounds handle that
is not yet in the garbage list succeeds (appending the handle to the garbage list),
and a second `destroy` of the same handle without an intervening dispose fails the
"Second item destroy detected" assertion instead of pushing a duplicate entry. -/
theorem c10_double_destroy_detected (α : Type) (p : LinearPool α) (h : Nat)
    (h0 : h ≠ 0) (hb : h - 1 < p.occupancy) (hg : h ∉ p.garbageItems) :
    LinearPool.destroyD p h =
      .ok { p with version := p.version + 1, garbageItems := p.garbageItems ++ [h] } ∧
    LinearPool.destroyD
      { p with version := p.version + 1, garbageItems := p.garbageItems ++ [h] } h =
      .error "Second item destroy detected." := by
  constructor
  · simp only [LinearPool.destroyD, if_neg h0, not_lt]
    rw [if_neg (by omega), if_neg hg]
  · simp only [LinearPool.destroyD, if_neg h0, not_lt]
    rw [if_neg (by omega), if_pos (by simp)]

theorem c10_double_destroy_detected_witness :
    LinearPool.destroyD c1s3 2 =
      .ok { c1s3 with
            version := c1s3.version + 1
            garbageItems := c1s3.garbageItems ++ [2] } ∧
    LinearPool.destroyD
      { c1s3 with
        version := c1s3.version + 1
        garbageItems := c1s3.garbageItems ++ [2] } 2 =
      .error "Second item destroy detected." :=
  c10_double_destroy_detected Nat c1s3 2 (by decide) (by decide) (by decide)

/-
  Entity component directory (src/include/ecsm.hpp, class Entity): a growable array
  of ComponentData triples kept sorted by type key. The `system` pointer is encoded
  as the index of the owning system's component pool in the Manager's pool table
  (`sys`); the type key (`std::type_index::hash_code()`) is a Nat.
-/

/-- `Entity::ComponentData`: (type key, owning system, component instance handle). -/
structure ComponentData where
  type : Nat := 0
  sys : Nat := 0
  inst : Nat := 0
deriving Repr, DecidableEq, Inhabited

/-- The order used by `Entity::compareComps` (ecsm.hpp lines 203-210): compare
`ComponentData` entries by type key only. -/
def compLe (a b : ComponentData) : Prop := a.type ≤ b.type

instance : DecidableRel compLe := fun a b => inferInstanceAs (Decidable (a.type ≤ b.type))
instance : IsTotal ComponentData compLe := ⟨fun a b => Nat.le_total a.type b.type⟩
instance : IsTrans ComponentData compLe := ⟨fun _ _ _ => Nat.le_trans⟩

/-- `Entity::addComponent` (ecsm.hpp lines 221-239): append the new triple, then
sort the whole array by type key with `qsort(components, count, ..., compareComps)`.
`qsort` produces a permutation sorted under `compareComps`; since the Manager keeps
type keys unique, that sorted permutation is unique, and we realise it with
insertion sort. -/
def addComponent (dir : List ComponentData) (t s i : Nat) : List ComponentData :=
  List.insertionSort compLe (dir ++ [{ type := t, sys := s, inst := i }])

/-- `Entity::removeComponent` (ecsm.hpp lines 240-244): compact the array by
shifting all entries after position `i` down by one and decrementing the count. -/
def removeComponent (dir : List ComponentData) (i : Nat) : List ComponentData :=
  dir.eraseIdx i

/-- The binary search performed by `bsearch` inside `Entity::findComponent`
(ecsm.hpp lines 279-283), searching the half-open index interval [lo, hi) of the
array for an entry whose type key compares equal. The recursion is driven by
explicit fuel; the interval shrinks strictly at every step, so any fuel
`≥ hi - lo` makes the exhaustion branch unreachable. -/
def bsearchAux (dir : List ComponentData) (t : Nat) : Nat → Nat → Nat → Option Nat
  | 0, _, _ => none
  | fuel + 1, lo, hi =>
    if lo < hi then
      let mid := (lo + hi) / 2
      let e := dir.getD mid default
      if t < e.type then bsearchAux dir t fuel lo mid
      else if e.type < t then bsearchAux dir t fuel (mid + 1) hi
      else some mid
    else none

/-- `Entity::findComponent(type)`: binary search over the whole array, returning the
index of a matching entry (standing for the returned pointer) or none. -/
def findComponent (dir : List ComponentData) (t : Nat) : Option Nat :=
  bsearchAux dir t (dir.length + 1) 0 dir.length

/-- The base `Component` record (ecsm.hpp, struct Component): it carries its owning
entity. -/
structure MComp where
  entity : Nat := 0
deriving Repr, DecidableEq, Inhabited

/-- Ordered insertion of a `(type key, entity)` pair into the global garbage set,
mirroring `std::set<std::pair<size_t, ID<Entity>>>::emplace` for a pair not yet
present: the set is kept sorted in lexicographic pair order. -/
def insertPairSorted (p : Nat × Nat) : List (Nat × Nat) → List (Nat × Nat)
  | [] => [p]
  | q :: rest =>
    if p.1 < q.1 ∨ (p.1 = q.1 ∧ p.2 < q.2) then p :: q :: rest
    else q :: insertPairSorted p rest

/-- Embedding of `ecsm::Manager` (the parts the claims observe): the entity pool
(each entity's payload is its component directory), one component pool per
registered component type (indexed by type key, standing for the
`componentTypes` map from type to owning system), and the global
`garbageComponents` set of `(type key, entity)` pairs. -/
structure Manager where
  entities : LinearPool (List ComponentData) := LinearPool.fresh []
  pools : List (LinearPool MComp) := []
  garbageComponents : List (Nat × Nat) := []
deriving Repr, DecidableEq

/-- `entities.get(entity)->…` read access to an entity's component directory
(entity handles are 1-based). -/
def Manager.getDir (m : Manager) (e : Nat) : List ComponentData :=
  m.entities.items.getD (e - 1) []

/-- Default component pool, used only to totalise list indexing. -/
def defaultMPool : LinearPool MComp := LinearPool.fresh {}

/-- `Manager::add(entity, componentType)` (src/source/ecsm.cpp lines 310-336):
look up the owning system (here: pool `t`), create the component and set its
`entity` field through the view, then fail if the entity already has an entry of
that type, otherwise record the new triple in the entity's directory via
`Entity::addComponent`. (On the throwing paths the model discards the partially
mutated state; no claim observes a failed add.) -/
def Manager.add (m : Manager) (e t : Nat) : Except String Manager :=
  if t < m.pools.length then
    let pr := LinearPool.create {} (m.pools.getD t defaultMPool) { entity := e }
    let dir := m.getDir e
    if (findComponent dir t).isSome then
      .error "Component is already added to the entity."
    else
      .ok { m with
            pools := m.pools.set t pr.2
            entities := { m.entities with
              items := m.entities.items.set (e - 1) (addComponent dir t t pr.1) } }
  else .error "Component is not registered by any system."

/-- `Manager::remove(entity, componentType)` (src/source/ecsm.cpp lines 337-351):
fail if the entity's directory has no matching entry; fail with "Already removed
component" if the `(type key, entity)` pair is already in the global garbage set;
otherwise insert the pair into the garbage set. Nothing else is touched here:
the directory entry and the pool record are finalised only by
`disposeGarbageComponents`. -/
def Manager.remove (m : Manager) (e t : Nat) : Except String Manager :=
  if (findComponent (m.getDir e) t).isNone then
    .error "Component is not added."
  else if (t, e) ∈ m.garbageComponents then
    .error "Already removed component."
  else
    .ok { m with garbageComponents := insertPairSorted (t, e) m.garbageComponents }

/-- `Manager::has(entity, componentType)` (ecsm.hpp lines 866-871): the directory
entry must exist and the `(type key, entity)` pair must not be in the global
garbage set. -/
def Manager.has (m : Manager) (e t : Nat) : Bool :=
  (findComponent (m.getDir e) t).isSome && decide ((t, e) ∉ m.garbageComponents)

/-- `Manager::tryGet(entity, componentType)` (ecsm.hpp lines 930-937): null view
when the directory entry is missing or the pair is in the global garbage set;
otherwise the component record fetched from the owning system's pool. -/
def Manager.tryGet (m : Manager) (e t : Nat) : Option MComp :=
  match findComponent (m.getDir e) t with
  | none => none
  | some i =>
    if (t, e) ∈ m.garbageComponents then none
    else
      let cd := (m.getDir e).getD i default
      some ((m.pools.getD cd.sys defaultMPool).items.getD (cd.inst - 1) {})

/-- `Manager::get(entity, componentType)` (ecsm.hpp lines 895-905): throws
"Component is not added" only when the directory entry is missing; the global
garbage set is not consulted. -/
def Manager.get (m : Manager) (e t : Nat) : Except String MComp :=
  match findComponent (m.getDir e) t with
  | none => .error "Component is not added."
  | some i =>
    let cd := (m.getDir e).getD i default
    .ok ((m.pools.getD cd.sys defaultMPool).items.getD (cd.inst - 1) {})

/-- `Manager::getID(entity, componentType)` (ecsm.hpp lines 962-972): same lookup
as `get`, returning the stored component instance handle. -/
def Manager.getID (m : Manager) (e t : Nat) : Except String Nat :=
  match findComponent (m.getDir e) t with
  | none => .error "Component is not added."
  | some i => .ok ((m.getDir e).getD i default).inst

/-- One iteration of the `disposeGarbageComponents` loop (src/source/ecsm.cpp lines
689-700) for the garbage pair `p = (type key, entity)`: look up the directory entry
(its absence is the fatal "Corrupted entity component destruction order"
assertion), call the owning system's `destroyComponent` — which marks the record in
the pool's own garbage list via `LinearPool::destroy` — and remove the directory
entry via `Entity::removeComponent`. -/
def Manager.dgcStep (m : Manager) (p : Nat × Nat) : Except String Manager :=
  let dir := m.getDir p.2
  match findComponent dir p.1 with
  | none => .error "Corrupted entity component destruction order."
  | some i =>
    let cd := dir.getD i default
    .ok { m with
          pools := m.pools.set cd.sys
            (LinearPool.destroy (m.pools.getD cd.sys defaultMPool) cd.inst)
          entities := { m.entities with
            items := m.entities.items.set (p.2 - 1) (removeComponent dir i) } }

/-- `Manager::disposeGarbageComponents` (src/source/ecsm.cpp lines 689-700): iterate
the global garbage set in its sorted order, finalising each pair, then clear the
set. -/
def Manager.disposeGarbageComponents (m : Manager) : Except String Manager := do
  let m' ← m.garbageComponents.foldlM Manager.dgcStep m
  .ok { m' with garbageComponents := [] }

/- Concrete Manager states shared by the component-lifecycle claims: one entity
(handle 1) with one attached component of type key 0, instance handle 1 in pool 0;
the global garbage set is empty. -/

def cdEx : ComponentData := { type := 0, sys := 0, inst := 1 }

def poolEx : LinearPool MComp :=
  { items := [{ entity := 1 }], occupancy := 1, capacity := 1, version := 1 }

def mgrEx : Manager :=
  { entities := { items := [[cdEx]], occupancy := 1, capacity := 1, version := 1 }
    pools := [poolEx]
    garbageComponents := [] }

/-- The state after detaching the type-0 component of entity 1 in `mgrEx`: only the
global garbage set changes. -/
def mgrEx1 : Manager := { mgrEx with garbageComponents := [(0, 1)] }

/-- The pair just inserted into the global garbage set is a member of it. -/
theorem mem_insertPairSorted_self (p : Nat × Nat) (l : List (Nat × Nat)) :
    p ∈ insertPairSorted p l := by
  induction l with
  | nil => simp [insertPairSorted]
  | cons q rest ih =>
    rw [insertPairSorted]
    split
    · exact List.mem_cons_self p _
    · exact List.mem_cons_of_mem q ih

/-- Inversion of a successful `Manager::remove`: the directory entry was found,
the pair was not yet garbage, and the only state change is the garbage-set
insertion. -/
theorem remove_ok_elim {m m' : Manager} {e t : Nat}
    (h : Manager.remove m e t = .ok m') :
    (findComponent (m.getDir e) t).isSome = true ∧
    (t, e) ∉ m.garbageComponents ∧
    m' = { m with garbageComponents := insertPairSorted (t, e) m.garbageComponents } := by
  rw [Manager.remove] at h
  split at h
  · exact absurd h (by simp)
  · next h1 =>
    split at h
    · exact absurd h (by simp)
    · next h2 =>
      refine ⟨?_, h2, (Except.ok.inj h).symm⟩
      cases hf : findComponent (m.getDir e) t
      · rw [hf] at h1; exact absurd rfl h1
      · rfl

/-- A record update that only touches the garbage set leaves every directory
unchanged. -/
theorem getDir_update_garbage (m : Manager) (g : List (Nat × Nat)) (e : Nat) :
    Manager.getDir { m with garbageComponents := g } e = Manager.getDir m e := rfl

/-- Finalisation of a single garbage pair: when the global garbage set holds
exactly `(t, e)` and the directory entry is at index `i`, the reclaim pass marks
the stored instance in the owning pool's garbage list, removes the directory
entry, and clears the set. -/
theorem dgc_singleton (m : Manager) (t e i : Nat)
    (hg : m.garbageComponents = [(t, e)])
    (hf : findComponent (m.getDir e) t = some i) :
    Manager.disposeGarbageComponents m = .ok
      { m with
        pools := m.pools.set ((m.getDir e).getD i default).sys
          (LinearPool.destroy
            (m.pools.getD ((m.getDir e).getD i default).sys defaultMPool)
            ((m.getDir e).getD i default).inst)
        entities := { m.entities with
          items := m.entities.items.set (e - 1) (removeComponent (m.getDir e) i) }
        garbageComponents := [] } := by
  rw [Manager.disposeGarbageComponents, hg]
  simp only [List.foldlM, Manager.dgcStep, hf, bind, Except.bind, pure, Except.pure]

/-- C2 counterexample: in the concrete state `mgrEx` (entity 1 with an attached
type-0 component), the detach `Manager::remove` succeeds but the entity's
directory entry is still found afterwards and the owning pool's garbage list is
still empty — contradicting the claim that the detach itself removes the
directory entry and pushes the handle onto the pool's garbage list. -/
theorem c2_detach_counterexample :
    Manager.remove mgrEx 1 0 = .ok mgrEx1 ∧
    findComponent (Manager.getDir mgrEx1 1) 0 = some 0 ∧
    (mgrEx1.pools.getD 0 defaultMPool).garbageItems = [] := by decide

/-- C2 (amended): the detach operation `Manager::remove` only inserts the
`(type key, entity)` pair into the global garbage set, leaving every directory
and every pool (including its garbage list) unchanged; the handle is pushed onto
the owning pool's garbage list and the directory entry is removed only by the
reclaim pass `disposeGarbageComponents` (shown here for a detach from a state
with an empty garbage set). -/
theorem c2_detach_amended (m m' : Manager) (e t : Nat)
    (h : Manager.remove m e t = .ok m') :
    m'.entities = m.entities ∧ m'.pools = m.pools ∧
    m'.garbageComponents = insertPairSorted (t, e) m.garbageComponents ∧
    (m.garbageComponents = [] →
      ∃ i, findComponent (m.getDir e) t = some i ∧
        Manager.disposeGarbageComponents m' = .ok
          { m with
            pools := m.pools.set ((m.getDir e).getD i default).sys
              (LinearPool.destroy
                (m.pools.getD ((m.getDir e).getD i default).sys defaultMPool)
                ((m.getDir e).getD i default).inst)
            entities := { m.entities with
              items := m.entities.items.set (e - 1)
                (removeComponent (m.getDir e) i) }
            garbageComponents := [] }) := by
  obtain ⟨hsome, hnot, rfl⟩ := remove_ok_elim h
  refine ⟨rfl, rfl, rfl, fun hg => ?_⟩
  rcases Option.isSome_iff_exists.mp hsome with ⟨i, hf⟩
  refine ⟨i, hf, ?_⟩
  have hg' : ({ m with
      garbageComponents :=
        insertPairSorted (t, e) m.garbageComponents } : Manager).garbageComponents
      = [(t, e)] := by
    rw [hg]; rfl
  exact dgc_singleton _ t e i hg' hf

theorem c2_detach_amended_witness :
    mgrEx1.entities = mgrEx.entities ∧ mgrEx1.pools = mgrEx.pools ∧
    mgrEx1.garbageComponents = insertPairSorted (0, 1) mgrEx.garbageComponents := by
  have h := c2_detach_amended mgrEx mgrEx1 1 0 (by decide)
  exact ⟨h.1, h.2.1, h.2.2.1⟩

/-- C3: after a detach and before the reclaim pass, `has` reports false and
`tryGet` reports a null view for the detached pair, even though the directory
entry is still physically present and the pools (hence the record's storage) are
untouched. -/
theorem c3_detached_reads_absent (m m' : Manager) (e t : Nat)
    (h : Manager.remove m e t = .ok m') :
    Manager.has m' e t = false ∧
    Manager.tryGet m' e t = none ∧
    (findComponent (m'.getDir e) t).isSome = true ∧
    m'.entities = m.entities ∧ m'.pools = m.pools := by
  obtain ⟨hsome, hnot, rfl⟩ := remove_ok_elim h
  rcases Option.isSome_iff_exists.mp hsome with ⟨i, hf⟩
  have hmem : (t, e) ∈ insertPairSorted (t, e) m.garbageComponents :=
    mem_insertPairSorted_self _ _
  refine ⟨?_, ?_, ?_, rfl, rfl⟩
  · simp [Manager.has, getDir_update_garbage, hf, hmem]
  · simp [Manager.tryGet, getDir_update_garbage, hf, hmem]
  · rw [getDir_update_garbage, hf]; rfl

theorem c3_detached_reads_absent_witness :
    Manager.has mgrEx1 1 0 = false ∧
    Manager.tryGet mgrEx1 1 0 = none ∧
    (findComponent (mgrEx1.getDir 1) 0).isSome = true := by
  have h := c3_detached_reads_absent mgrEx mgrEx1 1 0 (by decide)
  exact ⟨h.1, h.2.1, h.2.2.1⟩

/-
  Correctness of the directory's binary search and of the sort-on-insert
  invariant (claims C4 and C7).
-/

/-- In a `compLe`-sorted directory, type keys are monotone in the index. -/
theorem sorted_getD_mono (dir : List ComponentData) (hs : List.Pairwise compLe dir)
    (i j : Nat) (hij : i ≤ j) (hj : j < dir.length) :
    (dir.getD i default).type ≤ (dir.getD j default).type := by
  rcases Nat.eq_or_lt_of_le hij with heq | hlt
  · subst heq; exact le_rfl
  · have hi : i < dir.length := by omega
    rw [List.getD_eq_getElem dir default hi, List.getD_eq_getElem dir default hj]
    exact List.pairwise_iff_getElem.mp hs i j hi hj hlt

/-- Soundness of the `bsearch` loop: a returned index is in bounds and its entry's
type key compares equal to the searched key. -/
theorem bsearchAux_some_sound (dir : List ComponentData) (t : Nat) :
    ∀ fuel lo hi i, hi ≤ dir.length → bsearchAux dir t fuel lo hi = some i →
      i < dir.length ∧ (dir.getD i default).type = t := by
  intro fuel
  induction fuel with
  | zero => intro lo hi i _ h; simp [bsearchAux] at h
  | succ fuel ih =>
    intro lo hi i hhi h
    simp only [bsearchAux] at h
    by_cases hlh : lo < hi
    · rw [if_pos hlh] at h
      by_cases h1 : t < (dir.getD ((lo + hi) / 2) default).type
      · rw [if_pos h1] at h
        exact ih lo ((lo + hi) / 2) i (by omega) h
      · rw [if_neg h1] at h
        by_cases h2 : (dir.getD ((lo + hi) / 2) default).type < t
        · rw [if_pos h2] at h
          exact ih ((lo + hi) / 2 + 1) hi i hhi h
        · rw [if_neg h2] at h
          cases h
          exact ⟨by omega, by omega⟩
    · rw [if_neg hlh] at h; cases h

/-- Completeness of the `bsearch` loop on a `compLe`-sorted directory: if the
search of [lo, hi) comes back empty, no entry in that interval has the searched
type key. -/
theorem bsearchAux_none_complete (dir : List ComponentData) (t : Nat)
    (hs : List.Pairwise compLe dir) :
    ∀ fuel lo hi, hi ≤ dir.length → hi - lo ≤ fuel →
      bsearchAux dir t fuel lo hi = none →
      ∀ j, lo ≤ j → j < hi → (dir.getD j default).type ≠ t := by
  intro fuel
  induction fuel with
  | zero => intro lo hi _ hfuel _ j h1 h2; omega
  | succ fuel ih =>
    intro lo hi hhi hfuel hnone j hjlo hjhi
    simp only [bsearchAux] at hnone
    by_cases hlh : lo < hi
    · rw [if_pos hlh] at hnone
      by_cases h1 : t < (dir.getD ((lo + hi) / 2) default).type
      · rw [if_pos h1] at hnone
        by_cases hjm : j < (lo + hi) / 2
        · exact ih lo ((lo + hi) / 2) (by omega) (by omega) hnone j hjlo hjm
        · have hmono := sorted_getD_mono dir hs ((lo + hi) / 2) j (by omega) (by omega)
          intro hc; rw [hc] at hmono; omega
      · rw [if_neg h1] at hnone
        by_cases h2 : (dir.getD ((lo + hi) / 2) default).type < t
        · rw [if_pos h2] at hnone
          by_cases hjm : (lo + hi) / 2 + 1 ≤ j
          · exact ih ((lo + hi) / 2 + 1) hi hhi (by omega) hnone j hjm hjhi
          · have hmono := sorted_getD_mono dir hs j ((lo + hi) / 2) (by omega) (by omega)
            intro hc; rw [hc] at hmono; omega
        · rw [if_neg h2] at hnone; cases hnone
    · omega

/-- `Entity::findComponent` soundness: a found index points at an entry of the
searched type key. -/
theorem findComponent_some_sound {dir : List ComponentData} {t i : Nat}
    (h : findComponent dir t = some i) :
    i < dir.length ∧ (dir.getD i default).type = t :=
  bsearchAux_some_sound dir t (dir.length + 1) 0 dir.length i le_rfl h

/-- `Entity::findComponent` completeness on a sorted directory: a null result
means no entry carries the searched type key. -/
theorem findComponent_none_complete {dir : List ComponentData} {t : Nat}
    (hs : List.Pairwise compLe dir) (h : findComponent dir t = none) :
    ∀ cd ∈ dir, cd.type ≠ t := by
  intro cd hcd
  rcases List.mem_iff_getElem.mp hcd with ⟨j, hj, hget⟩
  have hres := bsearchAux_none_complete dir t hs (dir.length + 1) 0 dir.length
    le_rfl (by omega) h j (Nat.zero_le j) hj
  rw [List.getD_eq_getElem dir default hj, hget] at hres
  exact hres

/-- On a sorted directory, `findComponent` finds a present type key. -/
theorem findComponent_mem_isSome {dir : List ComponentData} {t : Nat}
    (hs : List.Pairwise compLe dir) {cd : ComponentData}
    (hcd : cd ∈ dir) (ht : cd.type = t) :
    (findComponent dir t).isSome = true := by
  cases hf : findComponent dir t
  · exact absurd ht (findComponent_none_complete hs hf cd hcd)
  · rfl

/-- The directory invariant: entries strictly sorted by type key (hence type keys
unique). -/
def DirSorted (dir : List ComponentData) : Prop :=
  List.Pairwise (fun a b => a.type < b.type) dir

theorem DirSorted.toCompLe {dir : List ComponentData} (h : DirSorted dir) :
    List.Pairwise compLe dir :=
  h.imp fun hab => Nat.le_of_lt hab

theorem DirSorted.nodupTypes {dir : List ComponentData} (h : DirSorted dir) :
    (dir.map (fun cd => cd.type)).Nodup :=
  List.Pairwise.map _ (fun _ _ hab => Nat.ne_of_lt hab) h

/-- `Entity::addComponent` (append + sort by type key) preserves the strict
directory invariant when the new type key is fresh. -/
theorem dirSorted_addComponent {dir : List ComponentData} (h : DirSorted dir)
    {t : Nat} (hfresh : ∀ cd ∈ dir, cd.type ≠ t) (s i : Nat) :
    DirSorted (addComponent dir t s i) := by
  have hsorted : List.Pairwise compLe (addComponent dir t s i) :=
    List.sorted_insertionSort compLe _
  have hperm : List.Perm (addComponent dir t s i)
      (dir ++ [{ type := t, sys := s, inst := i }]) :=
    List.perm_insertionSort compLe _
  have hnodup0 :
      ((dir ++ [({ type := t, sys := s, inst := i } : ComponentData)]).map
        (fun cd => cd.type)).Nodup := by
    rw [List.map_append, List.map_singleton]
    rw [List.nodup_append]
    refine ⟨h.nodupTypes, List.nodup_singleton _, ?_⟩
    intro a ha hb
    rcases List.mem_map.mp ha with ⟨cd, hcd, rfl⟩
    have hat : cd.type = t := List.mem_singleton.mp hb
    exact hfresh cd hcd hat
  have hnodup : ((addComponent dir t s i).map (fun cd => cd.type)).Nodup :=
    ((hperm.map (fun cd => cd.type)).nodup_iff).mpr hnodup0
  have hne : List.Pairwise (fun a b : ComponentData => a.type ≠ b.type)
      (addComponent dir t s i) := List.pairwise_map.mp hnodup
  exact (hsorted.and hne).imp fun hab => Nat.lt_of_le_of_ne hab.1 hab.2

/-- `Entity::removeComponent` (compaction) preserves the strict directory
invariant. -/
theorem dirSorted_removeComponent {dir : List ComponentData} (h : DirSorted dir)
    (i : Nat) : DirSorted (removeComponent dir i) :=
  h.sublist (List.eraseIdx_sublist dir i)

/-- The Manager-mediated operations on one entity's directory: an attach is
guarded by `findComponent` (Manager::add throws when the entry exists, leaving
the directory unchanged), a detach removes the entry found by `findComponent`
(as `disposeGarbageComponents` does). -/
inductive DirOp where
  | attach (t s i : Nat)
  | detach (t : Nat)
deriving Repr, DecidableEq

def applyOp (dir : List ComponentData) : DirOp → List ComponentData
  | .attach t s i =>
    if (findComponent dir t).isSome then dir else addComponent dir t s i
  | .detach t =>
    match findComponent dir t with
    | some j => removeComponent dir j
    | none => dir

def applyOps (ops : List DirOp) : List ComponentData := ops.foldl applyOp []

theorem dirSorted_applyOp {dir : List ComponentData} (h : DirSorted dir)
    (op : DirOp) : DirSorted (applyOp dir op) := by
  cases op with
  | attach t s i =>
    by_cases hf : (findComponent dir t).isSome
    · simpa [applyOp, hf] using h
    · have hnone : findComponent dir t = none := by
        cases hfc : findComponent dir t
        · rfl
        · rw [hfc] at hf; exact absurd rfl hf
      have := dirSorted_addComponent h
        (findComponent_none_complete h.toCompLe hnone) s i
      simpa [applyOp, hnone] using this
  | detach t =>
    cases hfc : findComponent dir t with
    | none => simpa [applyOp, hfc] using h
    | some j =>
      have := dirSorted_removeComponent h j
      simpa [applyOp, hfc] using this

theorem dirSorted_foldl (ops : List DirOp) :
    ∀ dir, DirSorted dir → DirSorted (List.foldl applyOp dir ops) := by
  induction ops with
  | nil => intro dir h; exact h
  | cons op rest ih => intro dir h; exact ih _ (dirSorted_applyOp h op)

theorem dirSorted_applyOps (ops : List DirOp) : DirSorted (applyOps ops) :=
  dirSorted_foldl ops [] List.Pairwise.nil

/-- C7: for every sequence of Manager-mediated attach/detach operations on one
entity, the component directory stays strictly sorted by type key with unique
type keys, and `findComponent` returns an index of the unique matching entry or
none exactly when no entry matches. -/
theorem c7_directory_sorted_and_find_correct (ops : List DirOp) (t : Nat) :
    DirSorted (applyOps ops) ∧
    ((applyOps ops).map (fun cd => cd.type)).Nodup ∧
    (∀ i, findComponent (applyOps ops) t = some i →
      i < (applyOps ops).length ∧ ((applyOps ops).getD i default).type = t) ∧
    (findComponent (applyOps ops) t = none →
      ∀ cd ∈ applyOps ops, cd.type ≠ t) := by
  have hs := dirSorted_applyOps ops
  exact ⟨hs, hs.nodupTypes, fun i h => findComponent_some_sound h,
    fun h => findComponent_none_complete hs.toCompLe h⟩

/-- Operation sequence used to witness C7: a duplicate attach of type 5 is
rejected, type 3 is attached and detached, types 5 and 7 remain. -/
def c7ops : List DirOp :=
  [.attach 5 0 1, .attach 3 0 2, .attach 5 1 9, .detach 3, .attach 7 0 3]

theorem c7_directory_sorted_and_find_correct_witness :
    DirSorted (applyOps c7ops) ∧
    (0 < (applyOps c7ops).length ∧ ((applyOps c7ops).getD 0 default).type = 5) := by
  have h := c7_directory_sorted_and_find_correct c7ops 5
  exact ⟨h.1, h.2.2.1 0 (by decide)⟩

/-- A successful directory lookup forces the entity index to be in bounds of the
entity pool's block (an out-of-range entity reads the empty directory, on which
`findComponent` returns none). -/
theorem getDir_bound {m : Manager} {e t : Nat}
    (h : (findComponent (m.getDir e) t).isSome = true) :
    e - 1 < m.entities.items.length := by
  by_contra hb
  have hdir : Manager.getDir m e = [] := by
    rw [Manager.getDir]
    simp [List.getD, List.getElem?_eq_none (by omega : m.entities.items.length ≤ e - 1)]
  rw [hdir] at h
  simp [findComponent, bsearchAux] at h

/-- One reclaim step never changes the entity block's length. -/
theorem dgcStep_length {m m' : Manager} {p : Nat × Nat}
    (h : Manager.dgcStep m p = .ok m') :
    m'.entities.items.length = m.entities.items.length := by
  rw [Manager.dgcStep] at h
  cases hf : findComponent (m.getDir p.2) p.1 with
  | none => rw [hf] at h; exact absurd h (by simp)
  | some i =>
    rw [hf] at h
    cases h
    simp [List.length_set]

theorem foldlM_dgc_length :
    ∀ (l : List (Nat × Nat)) (m m' : Manager),
      List.foldlM Manager.dgcStep m l = .ok m' →
      m'.entities.items.length = m.entities.items.length := by
  intro l
  induction l with
  | nil =>
    intro m m' h
    cases Except.ok.inj h
    rfl
  | cons p rest ih =>
    intro m m' h
    simp only [List.foldlM] at h
    cases hstep : Manager.dgcStep m p with
    | error s => rw [hstep] at h; exact absurd h (by simp [bind, Except.bind])
    | ok mm =>
      rw [hstep] at h
      simp only [bind, Except.bind] at h
      rw [ih mm m' h, dgcStep_length hstep]

/-- Inversion of a successful reclaim pass: the global garbage set ends empty and
the entity block's length is preserved. -/
theorem dgc_ok_elim {m m2 : Manager}
    (h : Manager.disposeGarbageComponents m = .ok m2) :
    m2.garbageComponents = [] ∧
    m2.entities.items.length = m.entities.items.length := by
  rw [Manager.disposeGarbageComponents] at h
  cases hf : List.foldlM Manager.dgcStep m m.garbageComponents with
  | error s => rw [hf] at h; exact absurd h (by simp [bind, Except.bind])
  | ok mm =>
    rw [hf] at h
    simp only [bind, Except.bind] at h
    obtain rfl := Except.ok.inj h
    exact ⟨rfl, foldlM_dgc_length m.garbageComponents m mm hf⟩

/-- Inversion of a successful `Manager::add`: the type is registered, the entity
had no entry of that type, the new triple is recorded via `Entity::addComponent`,
and the global garbage set is untouched. -/
theorem add_ok_elim {m m3 : Manager} {e t : Nat}
    (h : Manager.add m e t = .ok m3) :
    t < m.pools.length ∧ findComponent (m.getDir e) t = none ∧
    m3.entities.items = m.entities.items.set (e - 1)
      (addComponent (m.getDir e) t t
        (LinearPool.create {} (m.pools.getD t defaultMPool) { entity := e }).1) ∧
    m3.garbageComponents = m.garbageComponents := by
  simp only [Manager.add] at h
  split at h
  · next ht =>
    split at h
    · exact absurd h (by simp)
    · next hfind =>
      have hnone : findComponent (m.getDir e) t = none := by
        cases hfc : findComponent (m.getDir e) t
        · rfl
        · rw [hfc] at hfind; exact absurd rfl hfind
      obtain rfl := Except.ok.inj h
      exact ⟨ht, hnone, rfl, rfl⟩
  · exact absurd h (by simp)

/-- C4: detaching the same `(entity, type)` pair twice without an intervening
reclaim fails on the second `Manager::remove` with the "Already removed
component" error; a detach with no matching directory entry fails with
"Component is not added"; and after a reclaim pass (which clears the global
garbage set) and a re-attach, the same pair can be detached again. -/
theorem c4_double_detach_fails (m m' : Manager) (e t : Nat)
    (h : Manager.remove m e t = .ok m') :
    Manager.remove m' e t = .error "Already removed component." ∧
    (∀ (mm : Manager) (ee tt : Nat), findComponent (mm.getDir ee) tt = none →
      Manager.remove mm ee tt = .error "Component is not added.") ∧
    (∀ m2 m3, Manager.disposeGarbageComponents m' = .ok m2 →
      Manager.add m2 e t = .ok m3 →
      ∃ m4, Manager.remove m3 e t = .ok m4) := by
  obtain ⟨hsome, hnot, rfl⟩ := remove_ok_elim h
  rcases Option.isSome_iff_exists.mp hsome with ⟨i, hf⟩
  have hmem := mem_insertPairSorted_self (t, e) m.garbageComponents
  refine ⟨?_, ?_, ?_⟩
  · rw [Manager.remove, getDir_update_garbage, hf]
    rw [if_neg (by simp), if_pos (by simpa using hmem)]
  · intro mm ee tt hnone
    rw [Manager.remove, hnone]
    simp
  · intro m2 m3 hdg hadd
    obtain ⟨hreg, hnone2, hitems3, hgar3⟩ := add_ok_elim hadd
    obtain ⟨hgar2, hlen2⟩ := dgc_ok_elim hdg
    have hb : e - 1 < m2.entities.items.length := by
      rw [hlen2]
      exact getDir_bound hsome
    have hdir3 : Manager.getDir m3 e =
        addComponent (m2.getDir e) t t
          (LinearPool.create {} (m2.pools.getD t defaultMPool) { entity := e }).1 := by
      rw [Manager.getDir, hitems3]
      exact getD_set_self _ _ _ _ hb
    have hmem3 : (⟨t, t, (LinearPool.create {} (m2.pools.getD t defaultMPool)
          { entity := e }).1⟩ : ComponentData) ∈ Manager.getDir m3 e := by
      rw [hdir3, addComponent]
      exact (List.mem_insertionSort _).mpr
        (List.mem_append_right _ (List.mem_singleton.mpr rfl))
    have hsorted3 : List.Pairwise compLe (Manager.getDir m3 e) := by
      rw [hdir3, addComponent]
      exact List.sorted_insertionSort compLe _
    have hsome3 : (findComponent (Manager.getDir m3 e) t).isSome = true :=
      findComponent_mem_isSome hsorted3 hmem3 rfl
    rw [Manager.remove]
    rw [if_neg (by cases hfc : findComponent (Manager.getDir m3 e) t <;>
          simp_all), if_neg (by rw [hgar3, hgar2]; simp)]
    exact ⟨_, rfl⟩

/-- The state after a full reclaim pass on `mgrEx1`: the directory entry is gone
and instance handle 1 sits in the pool's own garbage list. -/
def mgrEx2 : Manager :=
  { entities := { items := [[]], occupancy := 1, capacity := 1, version := 1 }
    pools := [{ items := [{ entity := 1 }], occupancy := 1, capacity := 1,
                garbageItems := [1], version := 2 }]
    garbageComponents := [] }

/-- The state after re-attaching the type-0 component to entity 1 in `mgrEx2`:
the pool grew to capacity 2 and handed out instance handle 2. -/
def mgrEx3 : Manager :=
  { entities := { items := [[{ type := 0, sys := 0, inst := 2 }]],
                  occupancy := 1, capacity := 1, version := 1 }
    pools := [{ items := [{ entity := 1 }, { entity := 1 }], occupancy := 2,
                capacity := 2, garbageItems := [1], version := 3 }]
    garbageComponents := [] }

theorem c4_double_detach_fails_witness :
    Manager.remove mgrEx1 1 0 = .error "Already removed component." ∧
    Manager.remove mgrEx 1 1 = .error "Component is not added." ∧
    (∃ m4, Manager.remove mgrEx3 1 0 = .ok m4) := by
  have h := c4_double_detach_fails mgrEx mgrEx1 1 0 (by decide)
  exact ⟨h.1, h.2.1 mgrEx 1 1 (by decide), h.2.2 mgrEx2 mgrEx3 (by decide) (by decide)⟩

/-- C9: the non-try accessors `Manager::get` and `Manager::getID` do not
consult the global garbage set: after a detach and before the reclaim pass they
still succeed on the detached pair (no "Component is not added" error), while
`has` and `tryGet` already report the same component as absent. -/
theorem c9_get_ignores_garbage (m m' : Manager) (e t : Nat)
    (h : Manager.remove m e t = .ok m') :
    (Manager.get m' e t).isOk = true ∧
    (Manager.getID m' e t).isOk = true ∧
    Manager.has m' e t = false ∧
    Manager.tryGet m' e t = none := by
  obtain ⟨hsome, hnot, rfl⟩ := remove_ok_elim h
  rcases Option.isSome_iff_exists.mp hsome with ⟨i, hf⟩
  have hmem := mem_insertPairSorted_self (t, e) m.garbageComponents
  refine ⟨?_, ?_, ?_, ?_⟩
  · rw [Manager.get, getDir_update_garbage, hf]; rfl
  · rw [Manager.getID, getDir_update_garbage, hf]; rfl
  · simp [Manager.has, getDir_update_garbage, hf, hmem]
  · simp [Manager.tryGet, getDir_update_garbage, hf, hmem]

theorem c9_get_ignores_garbage_witness :
    (Manager.get mgrEx1 1 0).isOk = true ∧
    (Manager.getID mgrEx1 1 0).isOk = true ∧
    Manager.has mgrEx1 1 0 = false ∧
    Manager.tryGet mgrEx1 1 0 = none :=
  c9_get_ignores_garbage mgrEx mgrEx1 1 0 (by decide)

/-
  Embedding of `ecsm::Ref<T>` (src/include/linear-pool.hpp lines 336-483): a
  handle paired with a separately heap-owned reference counter. The counter heap
  is explicit: a list of counter cells, `none` marking a deallocated cell. The
  `counter` field holds the index of the owned cell, `none` for a null-countered
  reference.
-/

structure Ref where
  counter : Option Nat := none
  item : Nat := 0
deriving Repr, DecidableEq

/-- Reading a counter cell (`counter->load`). -/
def cellGet (heap : List (Option Int)) (i : Nat) : Option Int := heap.getD i none

/-- `Ref(ID<T> item)`: stores the handle; allocates a fresh counter cell holding 1
when the handle is non-null, stays null-countered otherwise. -/
def mkRef (h : Nat) (heap : List (Option Int)) : Ref × List (Option Int) :=
  if h = 0 then ({ item := h }, heap)
  else ({ counter := some heap.length, item := h }, heap ++ [some 1])

/-- The copy constructor: early-returns a default (null) reference when the source
item is null; otherwise `fetch_add(1)` on the shared cell and both fields are
shared. -/
def copyRef (r : Ref) (heap : List (Option Int)) : Ref × List (Option Int) :=
  if r.item = 0 then ({}, heap)
  else
    match r.counter with
    | some i => (r, heap.set i ((cellGet heap i).map (fun v => v + 1)))
    | none => (r, heap)

/-- The destructor: no-op on a null item; otherwise `fetch_sub(1)`, deallocating
the cell exactly when the fetched (pre-decrement) value was 1. -/
def dropRef (r : Ref) (heap : List (Option Int)) : List (Option Int) :=
  if r.item = 0 then heap
  else
    match r.counter with
    | some i =>
      match cellGet heap i with
      | some v => if v = 1 then heap.set i none else heap.set i (some (v - 1))
      | none => heap
    | none => heap

/-- The move constructor: both fields are transferred (no counter operation), the
source is zeroed out. -/
def moveRef (r : Ref) (heap : List (Option Int)) : Ref × Ref × List (Option Int) :=
  ({ counter := r.counter, item := r.item }, {}, heap)

/-- `Ref::getRefCount()`: 0 for a null item, otherwise the shared cell's value. -/
def getRefCount (r : Ref) (heap : List (Option Int)) : Int :=
  if r.item = 0 then 0
  else
    match r.counter with
    | some i => (cellGet heap i).getD 0
    | none => 0

/-- N successive copies of one reference (each copy shares the cell, so only the
heap evolves). -/
def iterCopy (r : Ref) : Nat → List (Option Int) → List (Option Int)
  | 0, heap => heap
  | n + 1, heap => iterCopy r n (copyRef r heap).2

/-- N successive drops of copies of one reference. -/
def iterDrop (r : Ref) : Nat → List (Option Int) → List (Option Int)
  | 0, heap => heap
  | n + 1, heap => iterDrop r n (dropRef r heap)

theorem copyRef_cell (h : Nat) (h0 : h ≠ 0) (v : Int) :
    (copyRef ⟨some 0, h⟩ [some v]).2 = [some (v + 1)] := by
  simp [copyRef, h0, cellGet]

theorem iterCopy_cell (h : Nat) (h0 : h ≠ 0) :
    ∀ (N : Nat) (v : Int), iterCopy ⟨some 0, h⟩ N [some v] = [some (v + N)] := by
  intro N
  induction N with
  | zero => intro v; simp [iterCopy]
  | succ n ih =>
    intro v
    rw [iterCopy, copyRef_cell h h0 v, ih (v + 1)]
    have : v + 1 + (n : Int) = v + ((n : Nat) + 1 : Nat) := by push_cast; ring
    rw [this]

theorem dropRef_cell_ne_one (h : Nat) (h0 : h ≠ 0) (v : Int) (hv : v ≠ 1) :
    dropRef ⟨some 0, h⟩ [some v] = [some (v - 1)] := by
  simp [dropRef, h0, cellGet, hv]

theorem dropRef_cell_one (h : Nat) (h0 : h ≠ 0) :
    dropRef ⟨some 0, h⟩ [some 1] = [none] := by
  simp [dropRef, h0, cellGet]

theorem iterDrop_cell (h : Nat) (h0 : h ≠ 0) :
    ∀ (N : Nat) (v : Int), 1 ≤ v →
      iterDrop ⟨some 0, h⟩ N [some (v + N)] = [some v] := by
  intro N
  induction N with
  | zero => intro v _; simp [iterDrop]
  | succ n ih =>
    intro v hv
    rw [iterDrop, dropRef_cell_ne_one h h0 _ (by push_cast; omega)]
    have : v + ((n : Nat) + 1 : Nat) - 1 = v + (n : Int) := by push_cast; ring
    rw [this]
    exact ih v hv

/-- C8: a Ref constructed from a non-null handle has reference count 1; N copies
raise the shared count to 1 + N and N drops bring it back to 1; a move transfers
the counter and item without incrementing, zeroes the source, and leaves the heap
untouched; dropping the last reference deallocates the counter cell exactly on
the 1 → 0 transition (a drop from any count ≥ 2 only decrements). -/
theorem c8_ref_lifecycle (h : Nat) (h0 : h ≠ 0) (N : Nat) (v : Int) (hv : 2 ≤ v) :
    getRefCount (mkRef h []).1 (mkRef h []).2 = 1 ∧
    getRefCount (mkRef h []).1 (iterCopy (mkRef h []).1 N (mkRef h []).2) = 1 + N ∧
    getRefCount (mkRef h []).1
      (iterDrop (mkRef h []).1 N (iterCopy (mkRef h []).1 N (mkRef h []).2)) = 1 ∧
    (moveRef (mkRef h []).1 (mkRef h []).2).1 = (mkRef h []).1 ∧
    (moveRef (mkRef h []).1 (mkRef h []).2).2.1 = ({} : Ref) ∧
    (moveRef (mkRef h []).1 (mkRef h []).2).2.2 = (mkRef h []).2 ∧
    dropRef (mkRef h []).1 (mkRef h []).2 = [none] ∧
    dropRef (mkRef h []).1 [some v] = [some (v - 1)] := by
  have hmk : mkRef h [] = (⟨some 0, h⟩, [some 1]) := by
    simp [mkRef, h0]
  rw [hmk]
  refine ⟨?_, ?_, ?_, rfl, rfl, rfl, ?_, ?_⟩
  · simp [getRefCount, h0, cellGet]
  · rw [iterCopy_cell h h0 N 1]
    simp [getRefCount, h0, cellGet]
  · rw [iterCopy_cell h h0 N 1, iterDrop_cell h h0 N 1 (by omega)]
    simp [getRefCount, h0, cellGet]
  · exact dropRef_cell_one h h0
  · exact dropRef_cell_ne_one h h0 v (by omega)

theorem c8_ref_lifecycle_witness :
    getRefCount (mkRef 7 []).1 (mkRef 7 []).2 = 1 ∧
    getRefCount (mkRef 7 []).1 (iterCopy (mkRef 7 []).1 2 (mkRef 7 []).2) = 1 + 2 ∧
    getRefCount (mkRef 7 []).1
      (iterDrop (mkRef 7 []).1 2 (iterCopy (mkRef 7 []).1 2 (mkRef 7 []).2)) = 1 ∧
    dropRef (mkRef 7 []).1 (mkRef 7 []).2 = [none] ∧
    dropRef (mkRef 7 []).1 [some 5] = [some (5 - 1)] := by
  have hh := c8_ref_lifecycle 7 (by decide) 2 5 (by norm_num)
  exact ⟨hh.1, hh.2.1, hh.2.2.1, hh.2.2.2.2.2.2.1, hh.2.2.2.2.2.2.2⟩

end Ecsm
